import Mathlib

/-!
Verification of the AI request dispatch layer of the repository: the
message translator and proxy handler (src/api/gemini.ts), the
client-side dispatcher with retry/fallback (src/src/services/ai-service.ts,
and its earlier variant src/unnamed/part_001), and the JSON response
repair routine `cleanJsonResponse` (src/src/services/ai-service.ts).

Strings are modelled as `List Char` (JavaScript strings); machine
integers as `Nat`. Network I/O is modelled by passing explicit oracles
(lists of responses consumed in order). All definitions are executable
and kernel-reducible so that concrete scenarios evaluate by `decide`.
-/

/-! ## Character constants (written via code points to keep the file free
of brace / backtick character literals) -/

def dquote : Char := Char.ofNat 34
def bslash : Char := Char.ofNat 92
def lbrace : Char := Char.ofNat 123
def rbrace : Char := Char.ofNat 125
def lbrack : Char := Char.ofNat 91
def rbrack : Char := Char.ofNat 93
def nlChar : Char := Char.ofNat 10
def crChar : Char := Char.ofNat 13
def tabChar : Char := Char.ofNat 9
def spaceChar : Char := Char.ofNat 32
def commaChar : Char := Char.ofNat 44
def colonChar : Char := Char.ofNat 58
def dotChar : Char := Char.ofNat 46
def minusChar : Char := Char.ofNat 45

/-! ## Small string utilities mirroring the JavaScript built-ins used by
the source (String.prototype.trim, includes, indexOf, replace) -/

/-- JavaScript `String.prototype.trim` whitespace test (restricted to the
whitespace characters that can actually occur in this code path:
space, tab, LF, CR). -/
def isWsChar (c : Char) : Bool :=
  c = spaceChar || c = tabChar || c = nlChar || c = crChar

def trimL (s : List Char) : List Char := s.dropWhile isWsChar

def trimR (s : List Char) : List Char := (s.reverse.dropWhile isWsChar).reverse

/-- Model of JavaScript `s.trim()`. -/
def jsTrim (s : List Char) : List Char := trimR (trimL s)

/-- Model of JavaScript `s.includes(pat)`. -/
def containsSubstr (pat : List Char) : List Char → Bool
  | [] => pat.isEmpty
  | c :: rest => pat.isPrefixOf (c :: rest) || containsSubstr pat rest

/-- One pass of JavaScript `s.replace(new RegExp(pat + nlOpt, g), em)`:
removes every (non-overlapping, left-to-right) occurrence of `pat`
together with one directly following LF when present, exactly as the
regexes in `cleanJsonResponse` step 1 do. Fuel-based so
that the kernel can evaluate it; `stripAll` supplies enough fuel. -/
def stripFence (pat : List Char) : Nat → List Char → List Char
  | 0, s => s
  | fuel + 1, s =>
    if pat ≠ [] ∧ pat.isPrefixOf s then
      let after := s.drop pat.length
      let after2 := if after.head? = some nlChar then after.tail else after
      stripFence pat fuel after2
    else
      match s with
      | [] => []
      | c :: rest => c :: stripFence pat fuel rest

def stripAll (pat s : List Char) : List Char := stripFence pat (s.length + 1) s

/-- JavaScript `cleaned.substring(cleaned.indexOf(lbrace))` combined with
the `firstBrace === -1` test: returns the suffix of the input starting at
its first unconditional occurrence of the opening brace, or `none` when
there is no brace at all. -/
def fromFirstBrace : List Char → Option (List Char)
  | [] => none
  | c :: rest => if c = lbrace then some (c :: rest) else fromFirstBrace rest

/-! ## The character scanner of cleanJsonResponse
(src/src/services/ai-service.ts lines 163-195) -/

/-- The loop state of the repair scan: `stack` holds the expected closing
brackets (JavaScript pushes/pops at the array end; here the top of the
stack is the list head), `result` the accumulated output, `inString` and
`escaped` the two Boolean flags of the source. -/
structure ScanState where
  stack : List Char
  result : List Char
  inString : Bool
  escaped : Bool
deriving DecidableEq, Repr

/-- One iteration of the `for` loop of `cleanJsonResponse` (lines 169-195).
A literal newline or carriage return inside a string is replaced by the
two characters backslash-n and the iteration `continue`s (leaving the
flags untouched); otherwise the character is appended, the `inString`
toggle is evaluated, the bracket stack is updated using the freshly
updated `inString`, and `escaped` is recomputed. -/
def scanStep (st : ScanState) (c : Char) : ScanState :=
  if st.inString ∧ (c = nlChar ∨ c = crChar) then
    { st with result := st.result ++ [bslash, 'n'] }
  else
    let result := st.result ++ [c]
    let inString := if c = dquote ∧ ¬ st.escaped then ¬ st.inString else st.inString
    let stack :=
      if ¬ inString then
        if c = lbrace then rbrace :: st.stack
        else if c = lbrack then rbrack :: st.stack
        else if c = rbrace ∨ c = rbrack then
          match st.stack with
          | top :: rest => if top = c then rest else st.stack
          | [] => st.stack
        else st.stack
      else st.stack
    let escaped := c = bslash ∧ ¬ st.escaped
    ⟨stack, result, inString, escaped⟩

def initScan : ScanState := ⟨[], [], false, false⟩

def scanFrom (st : ScanState) (s : List Char) : ScanState := s.foldl scanStep st

/-- Steps 4-6 of `cleanJsonResponse` (lines 197-214): trim, close an
unterminated string with a quote, drop a trailing comma, then append the
pending closers by popping the bracket stack (LIFO: list order, top
first), and trim once more. -/
def finishRepair (st : ScanState) : List Char :=
  let t := jsTrim st.result
  let t2 := if st.inString then t ++ [dquote] else t
  let t3 := if t2.getLast? = some commaChar then t2.dropLast else t2
  jsTrim (t3 ++ st.stack)

def fenceJsonStr : String := "```json"
def fenceStr : String := "```"

/-- The JSON repair routine `cleanJsonResponse` of
src/src/services/ai-service.ts lines 148-215: strip markdown fences,
cut everything before the first opening brace (returning the trimmed
text unchanged when no brace exists), then run the balancing scan and
the end-of-input fixups. -/
def cleanJsonResponse (content : List Char) : List Char :=
  let cleaned :=
    if containsSubstr fenceJsonStr.data content then
      stripAll fenceStr.data (stripAll fenceJsonStr.data content)
    else if containsSubstr fenceStr.data content then
      stripAll fenceStr.data content
    else content
  match fromFirstBrace cleaned with
  | none => jsTrim cleaned
  | some rest => finishRepair (scanFrom initScan rest)

/-! ## JSON values and their compact serialization

Used to state the repair claims: a "well-formed compact JSON object
serialized as a string" is `Json.ser (Json.obj kvs)`. Numbers are
restricted to integers (the repair routine never inspects number
syntax, so this restriction does not weaken any claim about it). -/

mutual
inductive Json where
  | null : Json
  | bool : Bool → Json
  | num : Int → Json
  | str : List Char → Json
  | arr : JsonArr → Json
  | obj : JsonObj → Json
inductive JsonArr where
  | nil : JsonArr
  | cons : Json → JsonArr → JsonArr
inductive JsonObj where
  | nil : JsonObj
  | cons : List Char → Json → JsonObj → JsonObj
end

/-- Decimal digit character. -/
def digitChar (d : Nat) : Char := Char.ofNat (48 + d)

/-- Decimal digits of a natural number (fuel-based so the kernel can
evaluate it; the wrapper supplies sufficient fuel). -/
def natDigits : Nat → Nat → List Char
  | 0, _ => []
  | fuel + 1, n =>
    if n < 10 then [digitChar n]
    else natDigits fuel (n / 10) ++ [digitChar (n % 10)]

def serNat (n : Nat) : List Char := natDigits (n + 1) n

def serInt (n : Int) : List Char :=
  if n < 0 then minusChar :: serNat (-n).toNat else serNat n.toNat

/-- JSON string escaping as produced by `JSON.stringify` for the
characters that matter to the repair scan: quote, backslash, LF, CR. -/
def escChar (c : Char) : List Char :=
  if c = dquote then [bslash, dquote]
  else if c = bslash then [bslash, bslash]
  else if c = nlChar then [bslash, 'n']
  else if c = crChar then [bslash, 'r']
  else [c]

def escStr : List Char → List Char
  | [] => []
  | c :: cs => escChar c ++ escStr cs

/-- Serialized JSON string literal: quote, escaped body, quote. -/
def strLit (cs : List Char) : List Char := dquote :: escStr cs ++ [dquote]

mutual
def Json.ser : Json → List Char
  | .null => "null".data
  | .bool true => "true".data
  | .bool false => "false".data
  | .num n => serInt n
  | .str cs => strLit cs
  | .arr xs => lbrack :: JsonArr.serElems xs ++ [rbrack]
  | .obj kvs => lbrace :: JsonObj.serMembers kvs ++ [rbrace]
def JsonArr.serElems : JsonArr → List Char
  | .nil => []
  | .cons v .nil => Json.ser v
  | .cons v (.cons w rest) =>
    Json.ser v ++ commaChar :: JsonArr.serElems (.cons w rest)
def JsonObj.serMembers : JsonObj → List Char
  | .nil => []
  | .cons k v .nil => strLit k ++ colonChar :: Json.ser v
  | .cons k v (.cons k2 w rest) =>
    (strLit k ++ colonChar :: Json.ser v) ++
      commaChar :: JsonObj.serMembers (.cons k2 w rest)
end

/-- First value bound to a key in a JSON object (membership check used to
state structural facts about repaired values). -/
def JsonObj.find (k : List Char) : JsonObj → Option Json
  | .nil => none
  | .cons k2 v rest => if k2 = k then some v else JsonObj.find k rest

def Json.find (k : List Char) : Json → Option Json
  | .obj kvs => JsonObj.find k kvs
  | _ => none

/-- Zero-based indexing into a JSON array value. -/
def JsonArr.get : JsonArr → Nat → Option Json
  | .nil, _ => none
  | .cons v _, 0 => some v
  | .cons _ rest, n + 1 => JsonArr.get rest n

def Json.arrGet (j : Json) (n : Nat) : Option Json :=
  match j with
  | .arr xs => JsonArr.get xs n
  | _ => none

/-! ## Message translator and proxy handler (src/api/gemini.ts)

The handler receives an OpenAI-style message list and converts it to the
Gemini wire format (lines 31-55), then performs one upstream call with
the single configured credential and maps the outcome to an HTTP
response (lines 57-94). -/

structure Msg where
  role : List Char
  content : List Char
deriving DecidableEq, Repr

structure Turn where
  role : List Char
  text : List Char
deriving DecidableEq, Repr

def sysRoleStr : String := "system"
def userRoleStr : String := "user"
def asstRoleStr : String := "assistant"
def modelRoleStr : String := "model"
def sysMarker : String := "System: "
def nl2 : String := "\n\n"

/-- The labelled preface a system message contributes:
`System: <content>\n\n` (template literals at lines 39 and 42). -/
def sysLabel (content : List Char) : List Char :=
  sysMarker.data ++ content ++ nl2.data

/-- One iteration of the `for (const message of messages)` loop
(lines 33-55): a system message creates a synthetic user turn when the
output is still empty and otherwise prepends its labelled text to the
text of the FIRST output turn; user/assistant messages append a fresh
turn; any other role is skipped. -/
def pushMsg (out : List Turn) (m : Msg) : List Turn :=
  if m.role = sysRoleStr.data then
    match out with
    | [] => [⟨userRoleStr.data, sysLabel m.content⟩]
    | t :: rest => ⟨t.role, sysLabel m.content ++ t.text⟩ :: rest
  else if m.role = userRoleStr.data then
    out ++ [⟨userRoleStr.data, m.content⟩]
  else if m.role = asstRoleStr.data then
    out ++ [⟨modelRoleStr.data, m.content⟩]
  else out

def translateFrom (out : List Turn) : List Msg → List Turn
  | [] => out
  | m :: ms => translateFrom (pushMsg out m) ms

/-- The complete message translation loop of the handler. -/
def translateMsgs (ms : List Msg) : List Turn := translateFrom [] ms

/-- Upstream (Gemini API) outcome as observed by the proxy handler:
a well-shaped 200, a 200 whose body lacks `candidates[0].content.parts[0].text`,
a non-ok status whose parsed error body may carry `error.message`
(`none` models a missing message field), or a thrown fetch error. -/
inductive GResp where
  | ok : List Char → GResp
  | okBadShape : GResp
  | httpErr : Nat → Option (List Char) → GResp
  | netfail : List Char → GResp

/-- Response body of the proxy endpoint: `{text, keyIndex, totalKeys}`
on success (line 83-87), `{error}` on every failure path. -/
inductive HBody where
  | success : List Char → Nat → Nat → HBody
  | failure : List Char → HBody
deriving DecidableEq, Repr

structure HandlerOut where
  status : Nat
  body : HBody
  attempted : List (List Char)
deriving Repr

/-- JavaScript `a || b` on possibly-undefined strings: an empty string is
falsy, so it falls through exactly like `undefined`. -/
def jsOrKey : Option (List Char) → Option (List Char) → Option (List Char)
  | some s, b => if s = [] then b else some s
  | none, b => b

/-- The credential selection of line 4:
`process.env.GEMINI_API_KEY || process.env.VITE_GEMINI_API_KEY1 ||
process.env.VITE_GEMINI_API_KEY`, normalised by the `if (!GEMINI_API_KEY)`
guard of line 17 (a falsy final value means no key). -/
def effKey (a b c : Option (List Char)) : Option (List Char) :=
  match jsOrKey a (jsOrKey b c) with
  | some s => if s = [] then none else some s
  | none => none

def postStr : String := "POST"
def mnaMsg : String := "Method not allowed"
def noKeyCfgMsg : String := "No Gemini API key configured on server. Please set VITE_GEMINI_API_KEY1 or VITE_GEMINI_API_KEY"
def invalidReqMsg : String := "Invalid request: messages array required"
def badShapeHMsg : String := "Unexpected response format from Gemini API"
def gemErrPre : String := "Gemini API Error: "

/-- Fallback message `Gemini API Error: <status>` of line 75. -/
def gemErrStatus (st : Nat) : List Char := gemErrPre.data ++ serNat st

/-- The serverless handler of src/api/gemini.ts. `envA/envB/envC` are
the three environment credentials in chain order; `body` is the parsed
`messages` field (`none` = absent or not an array); `upstream` maps the
chosen credential and the translated turns to the Gemini response.
`attempted` records which credentials were used for upstream calls. -/
def handler (method : List Char) (envA envB envC : Option (List Char))
    (body : Option (List Msg)) (upstream : List Char → List Turn → GResp) :
    HandlerOut :=
  if method ≠ postStr.data then ⟨405, .failure mnaMsg.data, []⟩
  else
    match effKey envA envB envC with
    | none => ⟨500, .failure noKeyCfgMsg.data, []⟩
    | some key =>
      match body with
      | none => ⟨400, .failure invalidReqMsg.data, []⟩
      | some msgs =>
        match upstream key (translateMsgs msgs) with
        | .ok t => ⟨200, .success t 0 1, [key]⟩
        | .okBadShape => ⟨500, .failure badShapeHMsg.data, [key]⟩
        | .httpErr st m? =>
          ⟨500, .failure
            (match m? with
             | some m => if m = [] then gemErrStatus st else m
             | none => gemErrStatus st), [key]⟩
        | .netfail m => ⟨500, .failure m, [key]⟩

/-! ## Client-side dispatcher, current version
(src/src/services/ai-service.ts, callGemini, lines 23-136)

The dispatcher is modelled as a function of explicit response oracles:
`ps` is the list of proxy responses and `ds` the list of direct-call
responses, consumed one per fetch in order. `fuel` bounds the recursion
(the source recursion is bounded by the `retryCount` guards; any fuel
larger than the retry budget is faithful). The `Trace` records the
outcome, how many proxy and direct calls were made, every backoff wait
in milliseconds, and the unconsumed oracles. -/

inductive PResp where
  | ok : List Char → PResp
  | okBadJson : PResp
  | httpErr : Nat → PResp
  | netfail : PResp
deriving DecidableEq, Repr

inductive DResp where
  | ok : List Char → DResp
  | okBadShape : DResp
  | httpErr : Nat → Option (List Char) → DResp
  | netfail : DResp
deriving DecidableEq, Repr

inductive CallResult where
  | success : List Char → CallResult
  | failure : List Char → CallResult
deriving DecidableEq, Repr

structure Trace where
  result : CallResult
  pCalls : Nat
  dCalls : Nat
  waits : List Nat
  pRest : List PResp
  dRest : List DResp
deriving DecidableEq, Repr

/-- `retryDelay` is a JavaScript number: `nan` models the NaN produced
when `parseFloat` receives no digits. -/
inductive JsDelay where
  | num : Nat → JsDelay
  | nan : JsDelay
deriving DecidableEq, Repr

/-- Total milliseconds slept by the countdown loop of lines 114-117:
one 1000 ms sleep per unit of `Math.round(retryDelay / 1000)`
(`Math.round(x) = floor(x + 1/2)` for non-negative x); a NaN bound runs
zero iterations. -/
def countdownMs : JsDelay → Nat
  | .num n => 1000 * ((n + 500) / 1000)
  | .nan => 0

def isDigitDot (c : Char) : Bool := c.isDigit || c = dotChar

def digitsToNat (ds : List Char) : Nat :=
  ds.foldl (fun n c => 10 * n + (c.toNat - 48)) 0

/-- `Math.ceil(parseFloat(run) * 1000) + 1000` for a captured run of
digits and dots (line 104). `parseFloat` reads an integer part, then an
optional dot und fractional digits, stopping at the first character it
cannot consume; no digits at all yields NaN. The decimal arithmetic is
modelled exactly (the claim instance, 3.5, is exactly representable in
binary floating point, so the model agrees with JavaScript there). -/
def parseHintMs (run : List Char) : JsDelay :=
  let intDs := run.takeWhile Char.isDigit
  let rest := run.drop intDs.length
  match rest with
  | c :: fr =>
    if c = dotChar then
      let frDs := fr.takeWhile Char.isDigit
      if intDs = [] ∧ frDs = [] then .nan
      else
        let pw := 10 ^ frDs.length
        .num (digitsToNat intDs * 1000 + (digitsToNat frDs * 1000 + (pw - 1)) / pw + 1000)
    else if intDs = [] then .nan
    else .num (digitsToNat intDs * 1000 + 1000)
  | [] => if intDs = [] then .nan else .num (digitsToNat intDs * 1000 + 1000)

def hintPat : String := "retry in "

/-- The regex match `errorMessage.match(/retry in ([\d.]+)s/)` of
line 102 followed by the delay computation of line 104: scan for the
literal `retry in `, capture the maximal run of digits/dots, and require
a literal `s` directly after it (since `s` is not in the captured
class, the maximal run is the only candidate, as with the backtracking
engine); on failure resume scanning one character further right. -/
def hintDelay : List Char → Option JsDelay
  | [] => none
  | c :: rest =>
    if hintPat.data.isPrefixOf (c :: rest) then
      let after := (c :: rest).drop hintPat.data.length
      let run := after.takeWhile isDigitDot
      let post := after.drop run.length
      if run.length ≠ 0 ∧ post.head? = some 's' then some (parseHintMs run)
      else hintDelay rest
    else hintDelay rest

def ftfMsg : String := "Failed to fetch"
def proxyFailMsg : String := "API call failed through proxy. Please check your hosting environment configuration."
def directDisabledMsg : String := "Direct API calls are disabled in production. Ensure the /api/gemini proxy is functional."
def noLocalKeyMsg : String := "Gemini API key not configured. Please check your .env file."
def quotaMsgPre : String := "Gemini API Quota Exceeded. Please wait 1-2 minutes for the cooldown and click the \x27Retry\x27 button. Details: "
def apiErrPre : String := "API Error ("
def gemErrParenPre : String := "Gemini API Error ("
def badShapeDirectMsg : String := "Cannot read properties of undefined"
def fuelOutMsg : String := "model ran out of fuel"

/-- `API Error (<status>)` set when the error body fails to parse
(line 107). -/
def apiErrStr (st : Nat) : List Char := apiErrPre.data ++ serNat st ++ [')']

/-- `Gemini API Error (<status>)` fallback of line 127. -/
def gemErrParen (st : Nat) : List Char := gemErrParenPre.data ++ serNat st ++ [')']

/-- The current dispatcher `callGemini` (ai-service.ts lines 23-136).

Production (`isLocal = false`): try the proxy; on 429/503 with
`retryCount < 3` sleep `2000 * (retryCount + 1)` and recurse inside the
`try` (a failure of the whole recursion is therefore caught by this
frame's `catch` and re-thrown as the generic proxy-failure message); any
other non-ok status falls through to the production guard of line 56
and throws the direct-calls-disabled error; a thrown fetch (or a 200
with an unreadable body) is caught and re-thrown as the proxy-failure
message. The direct transport is unreachable in production.

Local (`isLocal = true`): the proxy is skipped entirely; the direct call
runs with `localKey`. A non-ok response parses `error.error?.message`
(or falls back to `API Error (status)`), computes `retryDelay` from the
provider hint or `2000 * (retryCount + 1)`, and on 429/503/404 with
`retryCount < 5` sleeps the whole-second countdown and recurses; on an
exhausted 429 throws the quota message; otherwise throws the message.
Every error raised inside the `try` passes the frame's `catch`, which
retries once more after 1000 ms only when the message contains
`Failed to fetch` and `retryCount < 2` (the network-failure budget).
An exhausted response oracle is modelled as a network failure. -/
def callGemini2 : Nat → Bool → Option (List Char) → Nat → List PResp → List DResp → Trace
  | 0, _, _, _, ps, ds => ⟨.failure fuelOutMsg.data, 0, 0, [], ps, ds⟩
  | fuel + 1, isLocal, localKey, retryCount, ps, ds =>
    if isLocal then
      match localKey with
      | none => ⟨.failure noLocalKeyMsg.data, 0, 0, [], ps, ds⟩
      | some _ =>
        let inner : Trace :=
          match ds with
          | [] => ⟨.failure ftfMsg.data, 0, 1, [], ps, []⟩
          | d :: drest =>
            match d with
            | .ok t => ⟨.success t, 0, 1, [], ps, drest⟩
            | .okBadShape => ⟨.failure badShapeDirectMsg.data, 0, 1, [], ps, drest⟩
            | .netfail => ⟨.failure ftfMsg.data, 0, 1, [], ps, drest⟩
            | .httpErr st body? =>
              let errMsg := match body? with
                | some m => m
                | none => apiErrStr st
              let rd : JsDelay := match body? with
                | some m =>
                  match hintDelay m with
                  | some dl => dl
                  | none => .num (2000 * (retryCount + 1))
                | none => .num (2000 * (retryCount + 1))
              if (st = 429 ∨ st = 503 ∨ st = 404) ∧ retryCount < 5 then
                let r := callGemini2 fuel isLocal localKey (retryCount + 1) ps drest
                ⟨r.result, r.pCalls, r.dCalls + 1, countdownMs rd :: r.waits, r.pRest, r.dRest⟩
              else if st = 429 then
                ⟨.failure (quotaMsgPre.data ++ errMsg), 0, 1, [], ps, drest⟩
              else
                ⟨.failure (if errMsg = [] then gemErrParen st else errMsg), 0, 1, [], ps, drest⟩
        match inner.result with
        | .success _ => inner
        | .failure e =>
          if containsSubstr ftfMsg.data e ∧ retryCount < 2 then
            let r := callGemini2 fuel isLocal localKey (retryCount + 1) inner.pRest inner.dRest
            ⟨r.result, inner.pCalls + r.pCalls, inner.dCalls + r.dCalls,
              inner.waits ++ 1000 :: r.waits, r.pRest, r.dRest⟩
          else inner
    else
      match ps with
      | [] => ⟨.failure proxyFailMsg.data, 1, 0, [], [], ds⟩
      | p :: prest =>
        match p with
        | .ok t => ⟨.success t, 1, 0, [], prest, ds⟩
        | .okBadJson => ⟨.failure proxyFailMsg.data, 1, 0, [], prest, ds⟩
        | .netfail => ⟨.failure proxyFailMsg.data, 1, 0, [], prest, ds⟩
        | .httpErr st =>
          if (st = 429 ∨ st = 503) ∧ retryCount < 3 then
            let r := callGemini2 fuel isLocal localKey (retryCount + 1) prest ds
            let res := match r.result with
              | .success t => CallResult.success t
              | .failure _ => CallResult.failure proxyFailMsg.data
            ⟨res, r.pCalls + 1, r.dCalls, 2000 * (retryCount + 1) :: r.waits, r.pRest, r.dRest⟩
          else ⟨.failure directDisabledMsg.data, 1, 0, [], prest, ds⟩

/-! ## Client-side dispatcher, earlier version
(src/unnamed/part_001, callGemini, lines 23-88)

No retries at all: one proxy attempt; a 404 falls through silently to
the direct transport, a different failure throws unless its message
contains `404` or `Unexpected token` (the catch of lines 42-46), and
then one direct attempt runs. -/

inductive PResp1 where
  | ok : List Char → PResp1
  | err404 : PResp1
  | errOther : List Char → PResp1
  | netfail : List Char → PResp1
deriving DecidableEq, Repr

inductive DResp1 where
  | ok : List Char → DResp1
  | err : List Char → DResp1
deriving DecidableEq, Repr

structure Trace1 where
  result : CallResult
  pCalls : Nat
  dCalls : Nat
deriving DecidableEq, Repr

def s404Str : String := "404"
def unexpTokStr : String := "Unexpected token"
def v1NoKeyMsg : String := "Gemini Proxy not found (404) and no local key configured."

/-- The catch filter of part_001 lines 42-46: an error is swallowed
(falling through to the direct transport) iff its message contains
`404` or `Unexpected token`; otherwise it is re-thrown. -/
def v1Swallow (m : List Char) : Bool :=
  containsSubstr s404Str.data m || containsSubstr unexpTokStr.data m

/-- The earlier dispatcher `callGemini` of src/unnamed/part_001.
`proxy` is the single proxy response (used only when not local),
`direct` the single direct response. -/
def callGemini1 (isLocal : Bool) (proxy : PResp1) (localKey : Option (List Char))
    (direct : DResp1) : Trace1 :=
  let proxyStep : Option CallResult × Nat :=
    if isLocal then (none, 0)
    else
      match proxy with
      | .ok t => (some (.success t), 1)
      | .err404 => (none, 1)
      | .errOther m => (if v1Swallow m then none else some (.failure m), 1)
      | .netfail m => (if v1Swallow m then none else some (.failure m), 1)
  match proxyStep.1 with
  | some r => ⟨r, proxyStep.2, 0⟩
  | none =>
    match localKey with
    | none => ⟨.failure v1NoKeyMsg.data, proxyStep.2, 0⟩
    | some _ =>
      match direct with
      | .ok t => ⟨.success t, proxyStep.2, 1⟩
      | .err m => ⟨.failure m, proxyStep.2, 1⟩

/-! ## Concrete inputs used by the claims -/

def c1inStr : String := "\x7b\"a\": [1, 2, \x7b\"b\": \"x"
def c1repairedStr : String := "\x7b\"a\": [1, 2, \x7b\"b\": \"x\"\x7d]\x7d"
def c1commaInStr : String := "\x7b\"a\": [1, 2,"
def c1commaOutStr : String := "\x7b\"a\": [1, 2]\x7d"
def aStr : String := "a"
def bStr : String := "b"
def xStr : String := "x"

def c1innerValue : Json := .obj (.cons bStr.data (.str xStr.data) .nil)

def c1arrValue : Json :=
  .arr (.cons (.num 1) (.cons (.num 2) (.cons c1innerValue .nil)))

def c1value : Json := .obj (.cons aStr.data c1arrValue .nil)

def c7cexKvs : JsonObj := .cons aStr.data (.str fenceStr.data) .nil
def c7cexOutStr : String := "\x7b\"a\":\"\"\x7d"
def c7witKvs : JsonObj := .cons aStr.data (.num 1) .nil

def oneS : String := "S"
def oneU : String := "U"
def toolRoleStr : String := "tool"
def xContentStr : String := "x"

def k1Str : String := "KEY-ONE"
def k2Str : String := "KEY-TWO"
def kLocStr : String := "LOCAL-KEY"
def hiStr : String := "hi"
def helloStr : String := "hello"
def okStr : String := "ok"
def quotaTxt : String := "Resource exhausted: quota"
def c9Body : String := "Resource has been exhausted. Please retry in 3.5s."

def demoMsgs : List Msg := [⟨userRoleStr.data, hiStr.data⟩]

/-- An upstream oracle on which every credential fails with a
failover-eligible (HTTP 429 quota) error. -/
def demoFailUp : List Char → List Turn → GResp := fun _ _ => .httpErr 429 (some quotaTxt.data)

/-- Characters that the repair scan treats as pure payload: not a quote,
escape, newline or bracket. Scanning them changes nothing but the
accumulated result. -/
def neutralChar (c : Char) : Bool :=
  !(c = dquote || c = bslash || c = nlChar || c = crChar ||
    c = lbrace || c = rbrace || c = lbrack || c = rbrack)

/-- System messages of a message list, labelled and concatenated in
reverse order of appearance: exactly what accumulates at the front of
the first translated turn. -/
def sysAcc : List Msg → List Char
  | [] => []
  | m :: ms =>
    if m.role = sysRoleStr.data then sysAcc ms ++ sysLabel m.content else sysAcc ms

/-- Number of output turns the non-system messages of a list contribute. -/
def countTurns : List Msg → Nat
  | [] => 0
  | m :: ms =>
    (if m.role = sysRoleStr.data then 0
     else if m.role = userRoleStr.data then 1
     else if m.role = asstRoleStr.data then 1
     else 0) + countTurns ms

/-- Roles the translator recognises; all others are dropped. -/
def knownRole (m : Msg) : Bool :=
  m.role = sysRoleStr.data || m.role = userRoleStr.data || m.role = asstRoleStr.data

/-! ## A strict JSON sub-parser

Used to witness that a repaired string parses successfully: the parser
accepts only a subset of `JSON.parse` (objects, arrays, strings with
the standard escapes, integers, the three literals; no fraction or
exponent syntax, no \u escapes, no leading zeros), so `parseTop s = some v`
implies `JSON.parse` accepts `s` as well. -/

def skipWs (s : List Char) : List Char := s.dropWhile isWsChar

def nullTok : String := "null"
def trueTok : String := "true"
def falseTok : String := "false"

/-- Body of a JSON string literal after the opening quote: returns the
decoded characters and the input remaining after the closing quote. -/
def parseStrBody : List Char → Option (List Char × List Char)
  | [] => none
  | c :: rest =>
    if c = dquote then some ([], rest)
    else if c = bslash then
      match rest with
      | [] => none
      | e :: rest2 =>
        match
          (if e = dquote then some dquote
           else if e = bslash then some bslash
           else if e = 'n' then some nlChar
           else if e = 'r' then some crChar
           else if e = 't' then some tabChar
           else if e = '/' then some '/'
           else none) with
        | none => none
        | some u =>
          match parseStrBody rest2 with
          | none => none
          | some (t, r) => some (u :: t, r)
    else
      match parseStrBody rest with
      | none => none
      | some (t, r) => some (c :: t, r)

/-- An optionally negated decimal integer with no leading zeros. -/
def parseIntTok (s : List Char) : Option (Int × List Char) :=
  let p : Bool × List Char :=
    match s with
    | c :: rest => if c = minusChar then (true, rest) else (false, s)
    | [] => (false, s)
  let ds := p.2.takeWhile Char.isDigit
  if ds = [] then none
  else if ds.length > 1 ∧ ds.head? = some (digitChar 0) then none
  else
    let n : Int := Int.ofNat (digitsToNat ds)
    some (if p.1 then -n else n, p.2.drop ds.length)

mutual
def parseVal : Nat → List Char → Option (Json × List Char)
  | 0, _ => none
  | fuel + 1, s =>
    match skipWs s with
    | [] => none
    | c :: rest =>
      if c = lbrace then
        match parseObjRest fuel rest true with
        | none => none
        | some (kvs, r) => some (Json.obj kvs, r)
      else if c = lbrack then
        match parseArrRest fuel rest true with
        | none => none
        | some (xs, r) => some (Json.arr xs, r)
      else if c = dquote then
        match parseStrBody rest with
        | none => none
        | some (cs, r) => some (Json.str cs, r)
      else if nullTok.data.isPrefixOf (c :: rest) then
        some (Json.null, (c :: rest).drop 4)
      else if trueTok.data.isPrefixOf (c :: rest) then
        some (Json.bool true, (c :: rest).drop 4)
      else if falseTok.data.isPrefixOf (c :: rest) then
        some (Json.bool false, (c :: rest).drop 5)
      else
        match parseIntTok (c :: rest) with
        | none => none
        | some (n, r) => some (Json.num n, r)
def parseArrRest : Nat → List Char → Bool → Option (JsonArr × List Char)
  | 0, _, _ => none
  | fuel + 1, s, first =>
    match skipWs s with
    | [] => none
    | c :: rest =>
      if c = rbrack ∧ first then some (JsonArr.nil, rest)
      else
        match parseVal fuel (c :: rest) with
        | none => none
        | some (v, r1) =>
          match skipWs r1 with
          | [] => none
          | c2 :: r2 =>
            if c2 = commaChar then
              match parseArrRest fuel r2 false with
              | none => none
              | some (tl, r3) => some (JsonArr.cons v tl, r3)
            else if c2 = rbrack then some (JsonArr.cons v JsonArr.nil, r2)
            else none
def parseObjRest : Nat → List Char → Bool → Option (JsonObj × List Char)
  | 0, _, _ => none
  | fuel + 1, s, first =>
    match skipWs s with
    | [] => none
    | c :: rest =>
      if c = rbrace ∧ first then some (JsonObj.nil, rest)
      else if c = dquote then
        match parseStrBody rest with
        | none => none
        | some (k, r1) =>
          match skipWs r1 with
          | [] => none
          | c2 :: r2 =>
            if c2 = colonChar then
              match parseVal fuel r2 with
              | none => none
              | some (v, r3) =>
                match skipWs r3 with
                | [] => none
                | c3 :: r4 =>
                  if c3 = commaChar then
                    match parseObjRest fuel r4 false with
                    | none => none
                    | some (tl, r5) => some (JsonObj.cons k v tl, r5)
                  else if c3 = rbrace then some (JsonObj.cons k v JsonObj.nil, r4)
                  else none
            else none
      else none
end

/-- Complete parse: one JSON value followed only by whitespace. -/
def parseTop (s : List Char) : Option Json :=
  match parseVal (s.length + 1) s with
  | none => none
  | some (v, r) => if skipWs r = [] then some v else none

/-! ## Helper lemmas: the repair scanner on serialized JSON -/

theorem scanFrom_nil (st : ScanState) : scanFrom st [] = st := rfl

theorem scanFrom_cons (st : ScanState) (c : Char) (s : List Char) :
    scanFrom st (c :: s) = scanFrom (scanStep st c) s := rfl

theorem scanFrom_append (st : ScanState) (a b : List Char) :
    scanFrom st (a ++ b) = scanFrom (scanFrom st a) b := by
  simp [scanFrom, List.foldl_append]

theorem scanStep_neutral (st : ScanState) (c : Char) (h1 : st.inString = false)
    (h2 : st.escaped = false) (hc : neutralChar c = true) :
    scanStep st c = ⟨st.stack, st.result ++ [c], false, false⟩ := by
  simp only [neutralChar, Bool.not_eq_true', Bool.or_eq_false_iff,
    decide_eq_false_iff_not] at hc
  obtain ⟨⟨⟨⟨⟨⟨⟨hq, hb⟩, hn⟩, hr⟩, hlb⟩, hrb⟩, hlk⟩, hrk⟩ := hc
  simp [scanStep, h1, h2, hq, hb, hn, hr, hlb, hrb, hlk, hrk]

theorem scanFrom_neutral (s : List Char) : ∀ st : ScanState,
    st.inString = false → st.escaped = false → s.all neutralChar = true →
    scanFrom st s = ⟨st.stack, st.result ++ s, false, false⟩ := by
  induction s with
  | nil =>
    intro st h1 h2 _
    cases st
    simp_all [scanFrom_nil]
  | cons c cs ih =>
    intro st h1 h2 hall
    simp only [List.all_cons, Bool.and_eq_true] at hall
    rw [scanFrom_cons, scanStep_neutral st c h1 h2 hall.1, ih _ rfl rfl hall.2]
    simp

theorem scanFrom_escChar (c : Char) (st : ScanState) (h1 : st.inString = true)
    (h2 : st.escaped = false) :
    scanFrom st (escChar c) = ⟨st.stack, st.result ++ escChar c, true, false⟩ := by
  unfold escChar
  by_cases hq : c = dquote
  · subst hq
    simp +decide [scanFrom, scanStep, h1, h2]
  · by_cases hb : c = bslash
    · subst hb
      simp +decide [scanFrom, scanStep, h1, h2]
    · by_cases hn : c = nlChar
      · subst hn
        simp +decide [scanFrom, scanStep, h1, h2]
      · by_cases hr : c = crChar
        · subst hr
          simp +decide [scanFrom, scanStep, h1, h2]
        · simp [hq, hb, hn, hr, scanFrom, scanStep, h1, h2]

theorem scanFrom_escStr (cs : List Char) : ∀ st : ScanState,
    st.inString = true → st.escaped = false →
    scanFrom st (escStr cs) = ⟨st.stack, st.result ++ escStr cs, true, false⟩ := by
  induction cs with
  | nil =>
    intro st h1 h2
    cases st
    simp_all [escStr, scanFrom_nil]
  | cons c cs ih =>
    intro st h1 h2
    rw [escStr, scanFrom_append, scanFrom_escChar c st h1 h2, ih _ rfl rfl]
    simp

theorem scanFrom_strLit (cs : List Char) (st : ScanState) (h1 : st.inString = false)
    (h2 : st.escaped = false) :
    scanFrom st (strLit cs) = ⟨st.stack, st.result ++ strLit cs, false, false⟩ := by
  have hopen : scanStep st dquote = ⟨st.stack, st.result ++ [dquote], true, false⟩ := by
    simp +decide [scanStep, h1, h2]
  rw [strLit, List.cons_append, scanFrom_cons, hopen,
    scanFrom_append, scanFrom_escStr cs _ rfl rfl]
  simp +decide [scanFrom, scanStep, strLit]

theorem digitChar_neutral (d : Nat) (hd : d < 10) : neutralChar (digitChar d) = true := by
  interval_cases d <;> decide

theorem natDigits_all_neutral (fuel : Nat) : ∀ n : Nat,
    (natDigits fuel n).all neutralChar = true := by
  induction fuel with
  | zero => intro n; simp [natDigits]
  | succ fuel ih =>
    intro n
    rw [natDigits]
    by_cases h : n < 10
    · simp [h, digitChar_neutral n h]
    · have hm : n % 10 < 10 := Nat.mod_lt _ (by omega)
      simp [h, List.all_append, ih (n / 10), digitChar_neutral _ hm]

theorem serInt_all_neutral (n : Int) : (serInt n).all neutralChar = true := by
  unfold serInt serNat
  by_cases h : n < 0
  · simp +decide [h, natDigits_all_neutral]
  · simp [h, natDigits_all_neutral]

mutual
theorem scanFrom_ser (j : Json) : ∀ st : ScanState,
    st.inString = false → st.escaped = false →
    scanFrom st (Json.ser j) = ⟨st.stack, st.result ++ Json.ser j, false, false⟩ := by
  cases j with
  | null =>
    intro st h1 h2
    exact scanFrom_neutral _ st h1 h2 (by decide)
  | bool b =>
    intro st h1 h2
    cases b
    · exact scanFrom_neutral _ st h1 h2 (by decide)
    · exact scanFrom_neutral _ st h1 h2 (by decide)
  | num n =>
    intro st h1 h2
    exact scanFrom_neutral _ st h1 h2 (serInt_all_neutral n)
  | str cs =>
    intro st h1 h2
    exact scanFrom_strLit cs st h1 h2
  | arr xs =>
    intro st h1 h2
    have hopen : scanStep st lbrack = ⟨rbrack :: st.stack, st.result ++ [lbrack], false, false⟩ := by
      simp +decide [scanStep, h1, h2]
    have helems := scanFrom_serElems xs ⟨rbrack :: st.stack, st.result ++ [lbrack], false, false⟩ rfl rfl
    rw [Json.ser, List.cons_append, scanFrom_cons, hopen, scanFrom_append, helems]
    simp +decide [scanFrom, scanStep]
  | obj kvs =>
    intro st h1 h2
    have hopen : scanStep st lbrace = ⟨rbrace :: st.stack, st.result ++ [lbrace], false, false⟩ := by
      simp +decide [scanStep, h1, h2]
    have hmem := scanFrom_serMembers kvs ⟨rbrace :: st.stack, st.result ++ [lbrace], false, false⟩ rfl rfl
    rw [Json.ser, List.cons_append, scanFrom_cons, hopen, scanFrom_append, hmem]
    simp +decide [scanFrom, scanStep]
theorem scanFrom_serElems (xs : JsonArr) : ∀ st : ScanState,
    st.inString = false → st.escaped = false →
    scanFrom st (JsonArr.serElems xs) = ⟨st.stack, st.result ++ JsonArr.serElems xs, false, false⟩ := by
  cases xs with
  | nil =>
    intro st h1 h2
    cases st
    simp_all [JsonArr.serElems, scanFrom_nil]
  | cons v rest =>
    cases rest with
    | nil =>
      intro st h1 h2
      exact scanFrom_ser v st h1 h2
    | cons w r2 =>
      intro st h1 h2
      rw [JsonArr.serElems, scanFrom_append, scanFrom_ser v st h1 h2, scanFrom_cons]
      have hcomma : scanStep ⟨st.stack, st.result ++ Json.ser v, false, false⟩ commaChar
          = ⟨st.stack, (st.result ++ Json.ser v) ++ [commaChar], false, false⟩ := by
        simp +decide [scanStep]
      rw [hcomma, scanFrom_serElems (.cons w r2) _ rfl rfl]
      simp [JsonArr.serElems]
theorem scanFrom_serMembers (kvs : JsonObj) : ∀ st : ScanState,
    st.inString = false → st.escaped = false →
    scanFrom st (JsonObj.serMembers kvs) = ⟨st.stack, st.result ++ JsonObj.serMembers kvs, false, false⟩ := by
  cases kvs with
  | nil =>
    intro st h1 h2
    cases st
    simp_all [JsonObj.serMembers, scanFrom_nil]
  | cons k v rest =>
    cases rest with
    | nil =>
      intro st h1 h2
      rw [JsonObj.serMembers, scanFrom_append, scanFrom_strLit k st h1 h2, scanFrom_cons]
      have hcolon : scanStep ⟨st.stack, st.result ++ strLit k, false, false⟩ colonChar
          = ⟨st.stack, (st.result ++ strLit k) ++ [colonChar], false, false⟩ := by
        simp +decide [scanStep]
      rw [hcolon, scanFrom_ser v _ rfl rfl]
      simp [JsonObj.serMembers]
    | cons k2 w r2 =>
      intro st h1 h2
      have hcolon : scanStep ⟨st.stack, st.result ++ strLit k, false, false⟩ colonChar
          = ⟨st.stack, (st.result ++ strLit k) ++ [colonChar], false, false⟩ := by
        simp +decide [scanStep]
      have hmid : scanFrom ⟨st.stack, st.result ++ strLit k, false, false⟩ (colonChar :: Json.ser v)
          = ⟨st.stack, ((st.result ++ strLit k) ++ [colonChar]) ++ Json.ser v, false, false⟩ := by
        rw [scanFrom_cons, hcolon, scanFrom_ser v _ rfl rfl]
      have hcomma : scanStep ⟨st.stack, ((st.result ++ strLit k) ++ [colonChar]) ++ Json.ser v, false, false⟩ commaChar
          = ⟨st.stack, (((st.result ++ strLit k) ++ [colonChar]) ++ Json.ser v) ++ [commaChar], false, false⟩ := by
        simp +decide [scanStep]
      rw [JsonObj.serMembers, scanFrom_append, scanFrom_append,
        scanFrom_strLit k st h1 h2, hmid, scanFrom_cons, hcomma,
        scanFrom_serMembers (.cons k2 w r2) _ rfl rfl]
      simp [JsonObj.serMembers]
end

theorem containsSubstr_mono (p q : List Char) : ∀ s : List Char,
    containsSubstr (p ++ q) s = true → containsSubstr p s = true := by
  intro s
  induction s with
  | nil =>
    intro h
    simp only [containsSubstr, List.isEmpty_eq_true, List.append_eq_nil] at h ⊢
    exact h.1
  | cons c rest ih =>
    intro h
    simp only [containsSubstr, Bool.or_eq_true] at h ⊢
    rcases h with h | h
    · left
      rw [List.isPrefixOf_iff_prefix] at h ⊢
      exact (List.prefix_append p q).trans h
    · right
      exact ih h

theorem jsTrim_wrapped (a : Char) (body : List Char) (b : Char)
    (ha : isWsChar a = false) (hb : isWsChar b = false) :
    jsTrim (a :: body ++ [b]) = a :: body ++ [b] := by
  have hL : trimL (a :: body ++ [b]) = a :: body ++ [b] := by
    simp [trimL, List.dropWhile, ha]
  have hR : trimR (a :: body ++ [b]) = a :: body ++ [b] := by
    have hrev : (a :: body ++ [b]).reverse = b :: (body.reverse ++ [a]) := by
      simp
    rw [trimR, hrev, List.dropWhile_cons, hb]
    simp only [Bool.false_eq_true, if_false]
    rw [← hrev, List.reverse_reverse]
  rw [jsTrim, hL, hR]

theorem getLast_wrapped (a : Char) (body : List Char) (b : Char) :
    (a :: body ++ [b]).getLast? = some b := by
  rw [show a :: body ++ [b] = (a :: body) ++ [b] from rfl]
  exact List.getLast?_concat _

/-- Claim C7 helper: on a compact serialized JSON object that contains
no triple-backtick run, `cleanJsonResponse` is the identity. -/
theorem cleanJson_id_of_serObj (kvs : JsonObj)
    (h : containsSubstr fenceStr.data (Json.ser (Json.obj kvs)) = false) :
    cleanJsonResponse (Json.ser (Json.obj kvs)) = Json.ser (Json.obj kvs) := by
  have hdec : fenceJsonStr.data = fenceStr.data ++ "json".data := by decide
  have hj : containsSubstr fenceJsonStr.data (Json.ser (Json.obj kvs)) = false := by
    rw [hdec]
    cases hc : containsSubstr (fenceStr.data ++ "json".data) (Json.ser (Json.obj kvs)) with
    | false => rfl
    | true => rw [containsSubstr_mono _ _ _ hc] at h; cases h
  have hser : Json.ser (Json.obj kvs) = lbrace :: JsonObj.serMembers kvs ++ [rbrace] := rfl
  have hfb : fromFirstBrace (Json.ser (Json.obj kvs)) = some (Json.ser (Json.obj kvs)) := by
    show fromFirstBrace (lbrace :: (JsonObj.serMembers kvs ++ [rbrace]))
      = some (Json.ser (Json.obj kvs))
    rw [fromFirstBrace, if_pos rfl]
    rfl
  have hscan : scanFrom initScan (Json.ser (Json.obj kvs))
      = ⟨[], Json.ser (Json.obj kvs), false, false⟩ := by
    have := scanFrom_ser (Json.obj kvs) initScan rfl rfl
    simpa [initScan] using this
  have htrim : jsTrim (Json.ser (Json.obj kvs)) = Json.ser (Json.obj kvs) := by
    rw [hser]
    exact jsTrim_wrapped lbrace _ rbrace (by decide) (by decide)
  have hgl : (Json.ser (Json.obj kvs)).getLast? = some rbrace := by
    rw [hser]
    exact getLast_wrapped _ _ _
  have hfin : finishRepair ⟨[], Json.ser (Json.obj kvs), false, false⟩
      = Json.ser (Json.obj kvs) := by
    rw [finishRepair]
    simp +decide [htrim, hgl]
  rw [cleanJsonResponse]
  simp only [h, hj, Bool.false_eq_true, if_false, hfb, hscan, hfin]

/-! ## Helper lemmas: the message translator -/

theorem translateFrom_head (ms : List Msg) : ∀ (r0 t0 : List Char) (tail : List Turn),
    (translateFrom (⟨r0, t0⟩ :: tail) ms).head? = some ⟨r0, sysAcc ms ++ t0⟩ := by
  induction ms with
  | nil =>
    intro r0 t0 tail
    simp [translateFrom, sysAcc]
  | cons m ms ih =>
    intro r0 t0 tail
    rw [translateFrom]
    by_cases hs : m.role = sysRoleStr.data
    · rw [show pushMsg (⟨r0, t0⟩ :: tail) m = ⟨r0, sysLabel m.content ++ t0⟩ :: tail by
        simp [pushMsg, hs]]
      rw [ih]
      simp [sysAcc, hs, List.append_assoc]
    · by_cases hu : m.role = userRoleStr.data
      · rw [show pushMsg (⟨r0, t0⟩ :: tail) m
            = ⟨r0, t0⟩ :: (tail ++ [⟨userRoleStr.data, m.content⟩]) by
          simp +decide [pushMsg, hs, hu]]
        rw [ih]
        simp [sysAcc, hs]
      · by_cases ha : m.role = asstRoleStr.data
        · rw [show pushMsg (⟨r0, t0⟩ :: tail) m
              = ⟨r0, t0⟩ :: (tail ++ [⟨modelRoleStr.data, m.content⟩]) by
            simp +decide [pushMsg, hs, hu, ha]]
          rw [ih]
          simp [sysAcc, hs]
        · rw [show pushMsg (⟨r0, t0⟩ :: tail) m = ⟨r0, t0⟩ :: tail by
            simp +decide [pushMsg, hs, hu, ha]]
          rw [ih]
          simp [sysAcc, hs]

theorem translateFrom_length (ms : List Msg) : ∀ tail : List Turn, tail ≠ [] →
    (translateFrom tail ms).length = tail.length + countTurns ms := by
  induction ms with
  | nil =>
    intro tail _
    simp [translateFrom, countTurns]
  | cons m ms ih =>
    intro tail htail
    obtain ⟨t, rest, rfl⟩ : ∃ t rest, tail = t :: rest := by
      cases tail with
      | nil => exact absurd rfl htail
      | cons t rest => exact ⟨t, rest, rfl⟩
    rw [translateFrom, countTurns]
    by_cases hs : m.role = sysRoleStr.data
    · rw [show pushMsg (t :: rest) m = ⟨t.role, sysLabel m.content ++ t.text⟩ :: rest by
        simp [pushMsg, hs]]
      rw [ih _ (by simp)]
      simp [hs]
    · by_cases hu : m.role = userRoleStr.data
      · rw [show pushMsg (t :: rest) m
            = t :: (rest ++ [⟨userRoleStr.data, m.content⟩]) by
          simp +decide [pushMsg, hs, hu]]
        rw [ih _ (by simp)]
        simp +decide [hs, hu]
        omega
      · by_cases ha : m.role = asstRoleStr.data
        · rw [show pushMsg (t :: rest) m
              = t :: (rest ++ [⟨modelRoleStr.data, m.content⟩]) by
            simp +decide [pushMsg, hs, hu, ha]]
          rw [ih _ (by simp)]
          simp +decide [hs, hu, ha]
          omega
        · rw [show pushMsg (t :: rest) m = t :: rest by
            simp +decide [pushMsg, hs, hu, ha]]
          rw [ih _ (by simp)]
          simp +decide [hs, hu, ha]

theorem translateFrom_filter (ms : List Msg) : ∀ out : List Turn,
    translateFrom out ms = translateFrom out (ms.filter knownRole) := by
  induction ms with
  | nil =>
    intro out
    simp [List.filter]
  | cons m ms ih =>
    intro out
    rw [translateFrom, List.filter]
    by_cases hk : knownRole m = true
    · rw [hk, translateFrom, ih]
    · rw [Bool.not_eq_true] at hk
      rw [hk]
      have hstep : pushMsg out m = out := by
        simp only [knownRole, Bool.or_eq_false_iff, decide_eq_false_iff_not] at hk
        simp [pushMsg, hk.1.1, hk.1.2, hk.2]
      rw [hstep, ih]


/-! ## Helper lemmas: handler branch equations -/

theorem handler_provider_eq (envA envB envC : Option (List Char)) (msgs : List Msg)
    (upstream : List Char → List Turn → GResp) (key : List Char)
    (hk : effKey envA envB envC = some key) :
    handler postStr.data envA envB envC (some msgs) upstream
      = (match upstream key (translateMsgs msgs) with
         | .ok t => ⟨200, .success t 0 1, [key]⟩
         | .okBadShape => ⟨500, .failure badShapeHMsg.data, [key]⟩
         | .httpErr st m? =>
           ⟨500, .failure
             (match m? with
              | some m => if m = [] then gemErrStatus st else m
              | none => gemErrStatus st), [key]⟩
         | .netfail m => ⟨500, .failure m, [key]⟩) := by
  unfold handler
  rw [if_neg (by simp), hk]

theorem handler_nokey_eq (envA envB envC : Option (List Char))
    (body : Option (List Msg)) (upstream : List Char → List Turn → GResp)
    (hk : effKey envA envB envC = none) :
    handler postStr.data envA envB envC body upstream
      = ⟨500, .failure noKeyCfgMsg.data, []⟩ := by
  unfold handler
  rw [if_neg (by simp), hk]

theorem handler_nobody_eq (envA envB envC : Option (List Char))
    (upstream : List Char → List Turn → GResp) (key : List Char)
    (hk : effKey envA envB envC = some key) :
    handler postStr.data envA envB envC none upstream
      = ⟨400, .failure invalidReqMsg.data, []⟩ := by
  unfold handler
  rw [if_neg (by simp), hk]

theorem handler_notpost_eq (method : List Char) (envA envB envC : Option (List Char))
    (body : Option (List Msg)) (upstream : List Char → List Turn → GResp)
    (hm : method ≠ postStr.data) :
    handler method envA envB envC body upstream
      = ⟨405, .failure mnaMsg.data, []⟩ := by
  unfold handler
  rw [if_pos (by simpa using hm)]

/-! ## Claim theorems -/

/-- Claim C1 (confirmed): on the truncated input `'\x7b"a": [1, 2, \x7b"b": "x'`
the repair function closes the unterminated string with a quote and then
closes the open brace/bracket stack in LIFO order; the result parses
successfully as JSON, its key `a` holding an array whose third element
is an object with `b = "x"`. A truncated input ending in a comma has
that trailing comma dropped before the stack is closed. -/
theorem C1_repair_closes_structures :
    cleanJsonResponse c1inStr.data = c1repairedStr.data
    ∧ parseTop c1repairedStr.data = some c1value
    ∧ Json.find aStr.data c1value = some c1arrValue
    ∧ Json.arrGet c1arrValue 2 = some c1innerValue
    ∧ Json.find bStr.data c1innerValue = some (Json.str xStr.data)
    ∧ cleanJsonResponse c1commaInStr.data = c1commaOutStr.data
    ∧ parseTop c1commaOutStr.data
      = some (Json.obj (.cons aStr.data
          (.arr (.cons (.num 1) (.cons (.num 2) .nil))) .nil)) :=
  ⟨by decide, rfl, rfl, rfl, rfl, by decide, rfl⟩

/-- Claim C2 counterexample: for the list [system "S", user "U"] the
translator emits TWO turns — the synthetic turn `System: S\n\n` and a
separate user turn `U` — so the first turn's text is not
`System: S\n\nU` as claimed. -/
theorem C2_cex :
    translateMsgs [⟨sysRoleStr.data, oneS.data⟩, ⟨userRoleStr.data, oneU.data⟩]
      = [⟨userRoleStr.data, sysLabel oneS.data⟩, ⟨userRoleStr.data, oneU.data⟩]
    ∧ ((translateMsgs [⟨sysRoleStr.data, oneS.data⟩, ⟨userRoleStr.data, oneU.data⟩]).head?.map Turn.text)
      ≠ some (sysMarker.data ++ oneS.data ++ nl2.data ++ oneU.data) :=
  ⟨by decide, by decide⟩

/-- Claim C2 (corrected): for every system message followed by a user
message, the first output turn carries only the labelled system text
`System: <sys>\n\n`, and the user content forms a separate second
user turn (the handler pushes user messages as fresh turns; it never
folds them into the synthetic system turn). -/
theorem C2_translator_two_turns (s u : List Char) :
    translateMsgs [⟨sysRoleStr.data, s⟩, ⟨userRoleStr.data, u⟩]
      = [⟨userRoleStr.data, sysLabel s⟩, ⟨userRoleStr.data, u⟩] := by
  simp +decide [translateMsgs, translateFrom, pushMsg]

/-- Claim C3 counterexample: with a pool of two configured credentials
and an upstream that fails every credential with a failover-eligible
HTTP 429, the proxy attempts exactly one credential (the first), not
two, and surfaces the error after that single attempt. -/
theorem C3_cex :
    (handler postStr.data (some k1Str.data) (some k2Str.data) none (some demoMsgs) demoFailUp).attempted.length = 1
    ∧ (1 : Nat) ≠ 2
    ∧ (handler postStr.data (some k1Str.data) (some k2Str.data) none (some demoMsgs) demoFailUp).attempted = [k1Str.data]
    ∧ (handler postStr.data (some k1Str.data) (some k2Str.data) none (some demoMsgs) demoFailUp).status = 500
    ∧ (handler postStr.data (some k1Str.data) (some k2Str.data) none (some demoMsgs) demoFailUp).body
      = HBody.failure quotaTxt.data :=
  ⟨by decide, by decide, by decide, by decide, by decide⟩

/-- Claim C3 (corrected): the dispatcher holds no rotating pool — it
selects the single credential produced by the environment fallback chain
and, whatever the upstream outcome (including failover-eligible
failures on every credential), attempts exactly that one credential
before surfacing the error. -/
theorem C3_single_credential (method : List Char) (envA envB envC : Option (List Char))
    (body : Option (List Msg)) (upstream : List Char → List Turn → GResp)
    (key : List Char) (msgs : List Msg) (hk : effKey envA envB envC = some key)
    (hm : method = postStr.data) (hb : body = some msgs) :
    (handler method envA envB envC body upstream).attempted = [key]
    ∧ (handler method envA envB envC body upstream).attempted.length = 1 := by
  subst hm hb
  rw [handler_provider_eq envA envB envC msgs upstream key hk]
  cases upstream key (translateMsgs msgs) <;> simp

theorem C3_witness :
    (handler postStr.data (some k1Str.data) (some k2Str.data) none (some demoMsgs) demoFailUp).attempted = [k1Str.data]
    ∧ (handler postStr.data (some k1Str.data) (some k2Str.data) none (some demoMsgs) demoFailUp).attempted.length = 1 :=
  C3_single_credential postStr.data (some k1Str.data) (some k2Str.data) none
    (some demoMsgs) demoFailUp k1Str.data demoMsgs (by decide) rfl rfl

/-- Claim C4 (confirmed): with the proxy answering 503, 503, then 200
`text: hello`, the dispatcher returns `hello` after exactly two retries
of the proxy transport with linearly increasing delays 2000 ms and
4000 ms, and never touches the direct transport; with the proxy failing
persistently, retries stop after three (delays 2000/4000/6000 ms). -/
theorem C4_proxy_retry_scenario :
    callGemini2 9 false none 0 [PResp.httpErr 503, PResp.httpErr 503, PResp.ok helloStr.data] []
      = ⟨CallResult.success helloStr.data, 3, 0, [2000, 4000], [], []⟩
    ∧ callGemini2 9 false none 0 [PResp.httpErr 503, PResp.httpErr 503, PResp.httpErr 503, PResp.httpErr 503] []
      = ⟨CallResult.failure proxyFailMsg.data, 4, 0, [2000, 4000, 6000], [], []⟩ :=
  ⟨by decide, by decide⟩

/-- Claim C5 counterexample: in the current dispatcher
(ai-service.ts), a proxy 404 in production does NOT fall back to the
direct transport — the dispatcher makes zero direct calls and surfaces
the direct-calls-disabled error to the caller. -/
theorem C5_cex :
    (callGemini2 9 false (some kLocStr.data) 0 [PResp.httpErr 404] [DResp.ok helloStr.data]).dCalls = 0
    ∧ (callGemini2 9 false (some kLocStr.data) 0 [PResp.httpErr 404] [DResp.ok helloStr.data]).result
      = CallResult.failure directDisabledMsg.data :=
  ⟨by decide, by decide⟩

/-- Claim C5 (corrected): only the earlier dispatcher version
(src/unnamed/part_001) behaves as claimed — a proxy 404 silently falls
through to one direct attempt with no proxy retries and no surfaced
error; the current dispatcher (ai-service.ts) instead throws the
production error after the single proxy attempt without touching the
direct transport. -/
theorem C5_fallback_versions :
    callGemini1 false PResp1.err404 (some kLocStr.data) (DResp1.ok helloStr.data)
      = ⟨CallResult.success helloStr.data, 1, 1⟩
    ∧ callGemini2 9 false (some kLocStr.data) 0 [PResp.httpErr 404] [DResp.ok helloStr.data]
      = ⟨CallResult.failure directDisabledMsg.data, 1, 0, [], [], [DResp.ok helloStr.data]⟩ :=
  ⟨by decide, by decide⟩

/-- Claim C6 counterexample: a retryable provider failure (HTTP 429)
surfaces from the proxy endpoint with status 500, not 429/503 — the
provider's status is never propagated. -/
theorem C6_cex :
    (handler postStr.data (some k1Str.data) none none (some demoMsgs) demoFailUp).status = 500
    ∧ (handler postStr.data (some k1Str.data) none none (some demoMsgs) demoFailUp).status ≠ 429
    ∧ (handler postStr.data (some k1Str.data) none none (some demoMsgs) demoFailUp).body
      = HBody.failure quotaTxt.data :=
  ⟨by decide, by decide, by decide⟩

/-- Claim C6 (corrected): every failing proxy response does carry an
`error: string` body, and a successful one a `text` body with
status 200; but the status does not reflect the provider failure
class — non-POST gives 405, a missing key 500, invalid messages 400,
and every provider failure (429/503 included) is mapped to 500. -/
theorem C6_failure_body_shape (method : List Char) (envA envB envC : Option (List Char))
    (body : Option (List Msg)) (upstream : List Char → List Turn → GResp) :
    ((handler method envA envB envC body upstream).status ≠ 200 →
      ∃ e, (handler method envA envB envC body upstream).body = HBody.failure e)
    ∧ ((handler method envA envB envC body upstream).status = 200 →
      ∃ t, (handler method envA envB envC body upstream).body = HBody.success t 0 1)
    ∧ (∀ key msgs st m, effKey envA envB envC = some key → method = postStr.data →
        body = some msgs → upstream key (translateMsgs msgs) = GResp.httpErr st m →
        (handler method envA envB envC body upstream).status = 500) := by
  by_cases hm : method = postStr.data
  · subst hm
    cases hk : effKey envA envB envC with
    | none =>
      rw [handler_nokey_eq envA envB envC body upstream hk]
      refine ⟨fun _ => ⟨noKeyCfgMsg.data, rfl⟩, fun hc => absurd hc (by decide), ?_⟩
      intro key msgs st m hk2 _ _ _
      simp at hk2
    | some key =>
      cases hb : body with
      | none =>
        rw [handler_nobody_eq envA envB envC upstream key hk]
        refine ⟨fun _ => ⟨invalidReqMsg.data, rfl⟩, fun hc => absurd hc (by decide), ?_⟩
        intro key2 msgs st m _ _ hb2 _
        simp at hb2
      | some msgs =>
        rw [handler_provider_eq envA envB envC msgs upstream key hk]
        cases hup : upstream key (translateMsgs msgs) with
        | ok t =>
          refine ⟨fun hc => absurd rfl hc, fun _ => ⟨t, rfl⟩, ?_⟩
          intro key2 msgs2 st m hk2 _ hb2 hup2
          injection hk2 with hkey
          subst hkey
          injection hb2 with hmsgs
          subst hmsgs
          rw [hup] at hup2
          simp at hup2
        | okBadShape =>
          exact ⟨fun _ => ⟨badShapeHMsg.data, rfl⟩, fun hc => by simp at hc,
            fun _ _ _ _ _ _ _ _ => rfl⟩
        | httpErr st2 m2 =>
          exact ⟨fun _ => ⟨_, rfl⟩, fun hc => by simp at hc,
            fun _ _ _ _ _ _ _ _ => rfl⟩
        | netfail m2 =>
          exact ⟨fun _ => ⟨m2, rfl⟩, fun hc => by simp at hc,
            fun _ _ _ _ _ _ _ _ => rfl⟩
  · rw [handler_notpost_eq method envA envB envC body upstream hm]
    refine ⟨fun _ => ⟨mnaMsg.data, rfl⟩, fun hc => absurd hc (by decide), ?_⟩
    intro key msgs st m _ hm2 _ _
    exact absurd hm2 hm

theorem C6_witness :
    (handler postStr.data (some k1Str.data) none none (some demoMsgs) demoFailUp).status = 500 :=
  (C6_failure_body_shape postStr.data (some k1Str.data) none none (some demoMsgs) demoFailUp).2.2
    k1Str.data demoMsgs 429 (some quotaTxt.data) (by decide) rfl rfl rfl

/-- Claim C7 counterexample: the well-formed compact JSON object whose
single key `a` holds the string value of three backticks is rewritten by
the markdown-fence stripping to an object with an empty string, so
repair is not the identity on it, not even modulo surrounding
whitespace. -/
theorem C7_cex :
    cleanJsonResponse (Json.ser (Json.obj c7cexKvs)) ≠ Json.ser (Json.obj c7cexKvs)
    ∧ jsTrim (cleanJsonResponse (Json.ser (Json.obj c7cexKvs))) ≠ jsTrim (Json.ser (Json.obj c7cexKvs))
    ∧ cleanJsonResponse (Json.ser (Json.obj c7cexKvs)) = c7cexOutStr.data :=
  ⟨by decide, by decide, by decide⟩

/-- Claim C7 (corrected): the repair function is the identity on the
compact serialization of every JSON object whose serialized form
contains no triple-backtick run (without that proviso the markdown
stripping step rewrites string contents, see the counterexample). -/
theorem C7_repair_idempotent (kvs : JsonObj)
    (h : containsSubstr fenceStr.data (Json.ser (Json.obj kvs)) = false) :
    cleanJsonResponse (Json.ser (Json.obj kvs)) = Json.ser (Json.obj kvs) :=
  cleanJson_id_of_serObj kvs h

theorem C7_witness :
    containsSubstr fenceStr.data (Json.ser (Json.obj c7witKvs)) = false
    ∧ cleanJsonResponse (Json.ser (Json.obj c7witKvs)) = Json.ser (Json.obj c7witKvs) :=
  ⟨by decide, C7_repair_idempotent c7witKvs (by decide)⟩

/-- Claim C8 (confirmed): when a message list starts with two system
messages, both merge into the single first user turn with the second
message's labelled text ahead of the first's, and every later system
message keeps prepending at the very front (first-seen-last-prepended);
the second system message contributes no extra turn. -/
theorem C8_system_merge (a b : List Char) (rest : List Msg) :
    (translateMsgs (⟨sysRoleStr.data, a⟩ :: ⟨sysRoleStr.data, b⟩ :: rest)).head?
      = some ⟨userRoleStr.data, sysAcc rest ++ (sysLabel b ++ sysLabel a)⟩
    ∧ (translateMsgs (⟨sysRoleStr.data, a⟩ :: ⟨sysRoleStr.data, b⟩ :: rest)).length
      = 1 + countTurns rest := by
  have hstep : translateMsgs (⟨sysRoleStr.data, a⟩ :: ⟨sysRoleStr.data, b⟩ :: rest)
      = translateFrom [⟨userRoleStr.data, sysLabel b ++ sysLabel a⟩] rest := by
    simp +decide [translateMsgs, translateFrom, pushMsg]
  constructor
  · rw [hstep, translateFrom_head]
  · rw [hstep, translateFrom_length _ _ (by simp)]
    simp

/-- Claim C9 counterexample: with the provider hinting `retry in 3.5s`,
the computed delay is 4500 ms, but the countdown loop sleeps in whole
seconds, `Math.round(4500/1000) = 5`, so the dispatcher actually waits
5000 ms, not the claimed 4500 ms. -/
theorem C9_cex :
    (callGemini2 9 true (some kLocStr.data) 0 []
      [DResp.httpErr 429 (some c9Body.data), DResp.ok okStr.data]).waits = [5000]
    ∧ ([5000] : List Nat) ≠ [4500] :=
  ⟨by decide, by decide⟩

/-- Claim C9 (corrected): the hint `retry in 3.5s` makes the dispatcher
compute `ceil(3.5 * 1000) + 1000 = 4500` ms (overriding the default
backoff), but the wait actually performed is the whole-second countdown
`1000 * round(4500 / 1000) = 5000` ms, after which it retries once and
succeeds. -/
theorem C9_hint_delay :
    hintDelay c9Body.data = some (JsDelay.num 4500)
    ∧ countdownMs (JsDelay.num 4500) = 5000
    ∧ callGemini2 9 true (some kLocStr.data) 0 []
        [DResp.httpErr 429 (some c9Body.data), DResp.ok okStr.data]
      = ⟨CallResult.success okStr.data, 0, 2, [5000], [], []⟩ :=
  ⟨by decide, by decide, by decide⟩

/-- Claim C10 (confirmed): the translator emits turns only for the roles
system/user/assistant — translating any list equals translating its
restriction to those roles, and a message with any other role (e.g.
`tool`) produces no turn and no error. -/
theorem C10_unknown_roles_skipped :
    (∀ ms : List Msg, translateMsgs ms = translateMsgs (ms.filter knownRole))
    ∧ translateMsgs [⟨toolRoleStr.data, xContentStr.data⟩] = [] :=
  ⟨fun ms => translateFrom_filter ms [], by decide⟩
